import Mathlib

/-!
Shallow embedding of the NIMB-Mobile gateway (`nimb/app.go`) and proofs
about it.  Go `int` fields are modelled as `ℤ`, `float64` as `ℚ`, JSON
values as an inductive `JVal`, Go maps decoded from JSON objects as
association lists with first-match lookup, and the mutable records
(`Config`, `Stats`, `TunnelState`) as Lean structures transformed by pure
functions, one per handler / operation of the source.
-/

/-- Configuration record, mirroring `Config` in `app.go` (Go zero values:
`false`, `0`, `0.0`, `""`). -/
structure Config where
  showReasoning : Bool
  enableThinking : Bool
  logRequests : Bool
  contextSize : ℤ
  maxTokens : ℤ
  temperature : ℚ
  streamingEnabled : Bool
  currentModel : String
  apiKey : String
deriving DecidableEq

/-- A JSON body for `/api/config/save`; `none` models a field absent from
the request JSON (Go's `json.Decode` then leaves the zero value in place). -/
structure ConfigJSON where
  showReasoning : Option Bool
  enableThinking : Option Bool
  logRequests : Option Bool
  contextSize : Option ℤ
  maxTokens : Option ℤ
  temperature : Option ℚ
  streamingEnabled : Option Bool
  currentModel : Option String
  apiKey : Option String
deriving DecidableEq

/-- Result of `json.NewDecoder(r.Body).Decode(&cfg)` into a fresh zero-valued
`Config`: present fields are taken from the body, absent ones keep the zero
value. -/
def decodeConfig (j : ConfigJSON) : Config :=
  { showReasoning := j.showReasoning.getD false
    enableThinking := j.enableThinking.getD false
    logRequests := j.logRequests.getD false
    contextSize := j.contextSize.getD 0
    maxTokens := j.maxTokens.getD 0
    temperature := j.temperature.getD 0
    streamingEnabled := j.streamingEnabled.getD false
    currentModel := j.currentModel.getD ""
    apiKey := j.apiKey.getD "" }

/-- `handleSaveConfig` (app.go lines 321-348), restricted to its effect on the
stored configuration: decode the body into a fresh `Config`, merge the old
credential when the decoded one is empty, and replace the whole record. -/
def handleSaveConfig (j : ConfigJSON) (old : Config) : Config :=
  let cfg := decodeConfig j
  if cfg.apiKey = "" then { cfg with apiKey := old.apiKey } else cfg

/-- `handleSetAPIKey` (app.go lines 373-394): the decoded `key` field (absent
decodes to `""`) is stored unconditionally. -/
def handleSetAPIKey (key : String) (cfg : Config) : Config :=
  { cfg with apiKey := key }

/-- The default configuration built in `NewApp`, with a credential stored. -/
def cfgWithKey : Config :=
  { showReasoning := false
    enableThinking := false
    logRequests := true
    contextSize := 128000
    maxTokens := 0
    temperature := 7/10
    streamingEnabled := true
    currentModel := "deepseek-ai/deepseek-v3.2"
    apiKey := "sk-old" }

/-- A save body supplying a model name and an empty credential. -/
def bodyEmptyKey : ConfigJSON :=
  ⟨some true, none, none, none, none, none, none, some "m2", some ""⟩

/-- A save body supplying only a model name. -/
def bodyOnlyModel : ConfigJSON :=
  ⟨none, none, none, none, none, none, none, some "m9", none⟩

/-- C1: a configuration save stores the supplied credential when it is
non-empty, keeps the previously stored credential when the supplied one is
empty (or absent), and hence never erases a previously stored non-empty
credential with an empty one. -/
theorem save_config_preserves_credential (j : ConfigJSON) (old : Config) :
    (j.apiKey.getD "" = "" → (handleSaveConfig j old).apiKey = old.apiKey) ∧
    (∀ k, j.apiKey = some k → k ≠ "" → (handleSaveConfig j old).apiKey = k) ∧
    (old.apiKey ≠ "" → (handleSaveConfig j old).apiKey ≠ "") := by
  refine ⟨?_, ?_, ?_⟩
  · intro h
    simp [handleSaveConfig, decodeConfig, h]
  · intro k hk hne
    simp [handleSaveConfig, decodeConfig, hk, hne]
  · intro hold
    by_cases h : j.apiKey.getD "" = ""
    · simp [handleSaveConfig, decodeConfig, h, hold]
    · simp [handleSaveConfig, decodeConfig, h]

/-- Witness for `save_config_preserves_credential` at a concrete save with an
empty credential over a previously stored non-empty one. -/
theorem save_config_preserves_credential_witness :
    (handleSaveConfig bodyEmptyKey cfgWithKey).apiKey = cfgWithKey.apiKey :=
  (save_config_preserves_credential bodyEmptyKey cfgWithKey).1 (by decide)

/-- C9: `/api/apikey` stores exactly the supplied key, including the empty
string, so (unlike the `/api/config/save` path) it can erase a previously
stored non-empty credential. -/
theorem set_apikey_overwrites (key : String) (cfg : Config) :
    (handleSetAPIKey key cfg).apiKey = key ∧
    (cfg.apiKey ≠ "" →
      (handleSetAPIKey "" cfg).apiKey = "" ∧
      (handleSaveConfig bodyEmptyKey cfg).apiKey = cfg.apiKey) := by
  refine ⟨rfl, fun _ => ⟨rfl, ?_⟩⟩
  simp [handleSaveConfig, decodeConfig, bodyEmptyKey]

/-- Witness for `set_apikey_overwrites`: setting the empty key erases a stored
credential while a save with an empty credential keeps it. -/
theorem set_apikey_overwrites_witness :
    (handleSetAPIKey "" cfgWithKey).apiKey = "" :=
  ((set_apikey_overwrites "" cfgWithKey).2 (by decide)).1

/-- C10: `/api/config/save` replaces the whole configuration with the decoded
body: every field absent from the request takes its zero value, all
non-credential fields are taken from the body alone (independent of the
previous configuration), and only the credential is merged from the previous
configuration, exactly when the supplied credential is empty or absent. -/
theorem save_config_whole_replacement (j : ConfigJSON) (old : Config) :
    (j.showReasoning = none → (handleSaveConfig j old).showReasoning = false) ∧
    (j.enableThinking = none → (handleSaveConfig j old).enableThinking = false) ∧
    (j.logRequests = none → (handleSaveConfig j old).logRequests = false) ∧
    (j.contextSize = none → (handleSaveConfig j old).contextSize = 0) ∧
    (j.maxTokens = none → (handleSaveConfig j old).maxTokens = 0) ∧
    (j.temperature = none → (handleSaveConfig j old).temperature = 0) ∧
    (j.streamingEnabled = none → (handleSaveConfig j old).streamingEnabled = false) ∧
    (j.currentModel = none → (handleSaveConfig j old).currentModel = "") ∧
    (∀ old' : Config,
      (handleSaveConfig j old').showReasoning = (handleSaveConfig j old).showReasoning ∧
      (handleSaveConfig j old').enableThinking = (handleSaveConfig j old).enableThinking ∧
      (handleSaveConfig j old').logRequests = (handleSaveConfig j old).logRequests ∧
      (handleSaveConfig j old').contextSize = (handleSaveConfig j old).contextSize ∧
      (handleSaveConfig j old').maxTokens = (handleSaveConfig j old).maxTokens ∧
      (handleSaveConfig j old').temperature = (handleSaveConfig j old).temperature ∧
      (handleSaveConfig j old').streamingEnabled = (handleSaveConfig j old).streamingEnabled ∧
      (handleSaveConfig j old').currentModel = (handleSaveConfig j old).currentModel) ∧
    (j.apiKey.getD "" = "" → (handleSaveConfig j old).apiKey = old.apiKey) := by
  have hrep : ∀ o : Config, handleSaveConfig j o =
      { showReasoning := j.showReasoning.getD false
        enableThinking := j.enableThinking.getD false
        logRequests := j.logRequests.getD false
        contextSize := j.contextSize.getD 0
        maxTokens := j.maxTokens.getD 0
        temperature := j.temperature.getD 0
        streamingEnabled := j.streamingEnabled.getD false
        currentModel := j.currentModel.getD ""
        apiKey := if j.apiKey.getD "" = "" then o.apiKey else j.apiKey.getD "" } := by
    intro o
    by_cases hk : j.apiKey.getD "" = "" <;> simp [handleSaveConfig, decodeConfig, hk]
  refine ⟨fun h => ?_, fun h => ?_, fun h => ?_, fun h => ?_, fun h => ?_,
    fun h => ?_, fun h => ?_, fun h => ?_, fun old' => ?_, fun h => ?_⟩ <;>
    simp_all [hrep]

/-- Witness for `save_config_whole_replacement` at a body carrying only a
model name: a previously-true boolean field of the stored configuration
becomes its zero value. -/
theorem save_config_whole_replacement_witness :
    (handleSaveConfig bodyOnlyModel
      (handleSetAPIKey "sk-old"
        { cfgWithKey with showReasoning := true })).showReasoning = false :=
  (save_config_whole_replacement bodyOnlyModel
    (handleSetAPIKey "sk-old" { cfgWithKey with showReasoning := true })).1 rfl

/-- An error log entry, mirroring `ErrorItem` in `app.go`. -/
structure ErrorItem where
  timestamp : String
  message : String
  code : ℤ
deriving DecidableEq

/-- Usage statistics, mirroring `Stats` in `app.go`. -/
structure Stats where
  messageCount : ℤ
  promptTokens : ℤ
  completionTokens : ℤ
  totalTokens : ℤ
  errorCount : ℤ
  lastRequestTime : String
  startTime : String
  errorLog : List ErrorItem
deriving DecidableEq

/-- The statistics record built in `NewApp` and `handleResetStats`. -/
def freshStats (start : String) : Stats :=
  ⟨0, 0, 0, 0, 0, "", start, []⟩

/-- `logError` (app.go lines 636-650): one critical section that increments
the error count, prepends the new entry and truncates the log to the most
recent 50 entries.  `ts` stands for the ambient `time.Now()` timestamp. -/
def logError (ts msg : String) (code : ℤ) (st : Stats) : Stats :=
  let st1 : Stats :=
    { st with errorCount := st.errorCount + 1
              errorLog := ⟨ts, msg, code⟩ :: st.errorLog }
  if st1.errorLog.length > 50 then { st1 with errorLog := st1.errorLog.take 50 }
  else st1

/-- A sequence of `logError` insertions, each given as timestamp, message and
code, applied in order. -/
def applyErrors (es : List (String × String × ℤ)) (st : Stats) : Stats :=
  es.foldl (fun s e => logError e.1 e.2.1 e.2.2 s) st

/-- The entry one insertion creates. -/
def mkErrorItem (e : String × String × ℤ) : ErrorItem :=
  ⟨e.1, e.2.1, e.2.2⟩

lemma logError_errorLog_eq (ts msg : String) (code : ℤ) (st : Stats) :
    (logError ts msg code st).errorLog =
      ((⟨ts, msg, code⟩ : ErrorItem) :: st.errorLog).take 50 := by
  simp only [logError]
  split
  · rfl
  · next hlen =>
    exact (List.take_of_length_le (Nat.le_of_not_lt (by simpa using hlen))).symm

lemma logError_errorCount (ts msg : String) (code : ℤ) (st : Stats) :
    (logError ts msg code st).errorCount = st.errorCount + 1 := by
  simp only [logError]
  split <;> rfl

lemma take_append_take {α : Type} (a l : List α) (n : ℕ) :
    (a ++ l.take n).take n = (a ++ l).take n := by
  rw [List.take_append_eq_append_take, List.take_append_eq_append_take,
    List.take_take, min_eq_left (Nat.sub_le _ _)]

/-- C7: any sequence of `logError` insertions, started from a statistics
record whose log holds at most 50 entries, leaves at most 50 entries, leaves
the log equal to the reversed insertion sequence prepended to the initial log
and truncated to 50 (hence ordered most-recent-first), and bumps the error
count once per insertion. -/
theorem error_log_bounded_mrf (es : List (String × String × ℤ)) (st : Stats)
    (h : st.errorLog.length ≤ 50) :
    (applyErrors es st).errorLog.length ≤ 50 ∧
    (applyErrors es st).errorLog =
      ((es.map mkErrorItem).reverse ++ st.errorLog).take 50 ∧
    (applyErrors es st).errorCount = st.errorCount + es.length := by
  induction es generalizing st with
  | nil =>
    exact ⟨h, by simp [applyErrors, List.take_of_length_le h], by simp [applyErrors]⟩
  | cons e es ih =>
    have hlen1 : (logError e.1 e.2.1 e.2.2 st).errorLog.length ≤ 50 := by
      rw [logError_errorLog_eq, List.length_take]
      exact Nat.min_le_left _ _
    obtain ⟨h1, h2, h3⟩ := ih (logError e.1 e.2.1 e.2.2 st) hlen1
    refine ⟨h1, ?_, ?_⟩
    · rw [logError_errorLog_eq] at h2
      calc (applyErrors (e :: es) st).errorLog
          = ((es.map mkErrorItem).reverse ++
              ((mkErrorItem e :: st.errorLog).take 50)).take 50 := h2
        _ = ((es.map mkErrorItem).reverse ++ (mkErrorItem e :: st.errorLog)).take 50 :=
            take_append_take _ _ _
        _ = (((e :: es).map mkErrorItem).reverse ++ st.errorLog).take 50 := by
            simp [List.append_assoc]
    · rw [show applyErrors (e :: es) st
            = applyErrors es (logError e.1 e.2.1 e.2.2 st) from rfl, h3,
        logError_errorCount]
      simp only [List.length_cons]
      push_cast
      ring

/-- A concrete pair of error insertions. -/
def errsEx : List (String × String × ℤ) :=
  [("t1", "boom", 500), ("t2", "bad", 400)]

/-- Witness for `error_log_bounded_mrf` on two insertions into a fresh
statistics record. -/
theorem error_log_bounded_mrf_witness :
    (applyErrors errsEx (freshStats "t0")).errorLog.length ≤ 50 ∧
    (applyErrors errsEx (freshStats "t0")).errorLog =
      ((errsEx.map mkErrorItem).reverse ++ (freshStats "t0").errorLog).take 50 ∧
    (applyErrors errsEx (freshStats "t0")).errorCount =
      (freshStats "t0").errorCount + errsEx.length :=
  error_log_bounded_mrf errsEx (freshStats "t0") (by decide)

/-- A JSON value, as decoded by Go's `encoding/json` into its dynamic
representation: numbers always decode as `float64` (here `ℚ`), objects as
maps (here association lists with first-match lookup). -/
inductive JVal where
  | null : JVal
  | bool : Bool → JVal
  | num : ℚ → JVal
  | str : String → JVal
  | arr : List JVal → JVal
  | obj : List (String × JVal) → JVal

/-- Go map read `m[k]`: `none` models a missing key. -/
def lookupJ (l : List (String × JVal)) (k : String) : Option JVal :=
  List.lookup k l

/-- Go's `int(x)` conversion of a `float64`: truncation toward zero. -/
def goTruncQ (q : ℚ) : ℤ :=
  if 0 ≤ q then ⌊q⌋ else ⌈q⌉

lemma goTruncQ_intCast (n : ℤ) : goTruncQ (n : ℚ) = n := by
  unfold goTruncQ
  split
  · exact Int.floor_intCast n
  · exact Int.ceil_intCast n

/-- The fixed allow-list of passthrough parameters (app.go line 513). -/
def passthroughParams : List String :=
  ["top_p", "top_k", "frequency_penalty", "presence_penalty",
   "repetition_penalty", "min_p", "seed", "stop", "n",
   "context_length", "context_window", "truncate"]

/-- The `temperature` sent upstream: the caller's value when present as a
JSON number (Go's `.(float64)` type assertion), else the configured default
(app.go lines 495-499). -/
def tempArg (req : List (String × JVal)) (cfg : Config) : ℚ :=
  match lookupJ req "temperature" with
  | some (JVal.num t) => t
  | _ => cfg.temperature

/-- The `max_tokens` sent upstream: `int(...)` of the caller's value when
present as a JSON number, else the configured default (app.go lines 501-505). -/
def maxTokArg (req : List (String × JVal)) (cfg : Config) : ℤ :=
  match lookupJ req "max_tokens" with
  | some (JVal.num m) => goTruncQ m
  | _ => cfg.maxTokens

/-- The `stream` flag sent upstream: the caller's value when present as a
JSON boolean, else the configured default (app.go lines 507-511). -/
def streamArg (req : List (String × JVal)) (cfg : Config) : Bool :=
  match lookupJ req "stream" with
  | some (JVal.bool b) => b
  | _ => cfg.streamingEnabled

/-- The outbound request body `nimReq` built by `handleChatCompletions`
(app.go lines 490-518): configured model, passthrough messages, defaulted
temperature / max_tokens / stream, then the allow-listed extra fields. -/
def nimReqBody (req : List (String × JVal)) (cfg : Config) : List (String × JVal) :=
  [("model", JVal.str cfg.currentModel),
   ("messages", (lookupJ req "messages").getD JVal.null),
   ("temperature", JVal.num (tempArg req cfg)),
   ("max_tokens", JVal.num (maxTokArg req cfg : ℚ)),
   ("stream", JVal.bool (streamArg req cfg))]
  ++ passthroughParams.filterMap (fun p => (lookupJ req p).map (fun v => (p, v)))

/-- The handler's later read `nimReq["stream"].(bool)` (app.go line 582). -/
def streamBool (nimReq : List (String × JVal)) : Bool :=
  match lookupJ nimReq "stream" with
  | some (JVal.bool b) => b
  | _ => false

/-- An upstream HTTP response as the relay sees it: status code, raw body
bytes, and the result of `json.Unmarshal` of the body into a Go map (`none`
models a parse failure or a non-object body, which the code ignores). -/
structure Upstream where
  statusCode : ℕ
  rawBody : String
  parsedObj : Option (List (String × JVal))

/-- Usage extraction of the non-streaming relay (app.go lines 609-624): if
the parsed body holds a `usage` object, each of the three token fields
present as a number is added to the corresponding counter. -/
def updateUsage (parsed : Option (List (String × JVal))) (st : Stats) : Stats :=
  match parsed with
  | none => st
  | some resp =>
    match lookupJ resp "usage" with
    | some (JVal.obj usage) =>
      let st1 :=
        match lookupJ usage "prompt_tokens" with
        | some (JVal.num pt) => { st with promptTokens := st.promptTokens + goTruncQ pt }
        | _ => st
      let st2 :=
        match lookupJ usage "completion_tokens" with
        | some (JVal.num ct) =>
          { st1 with completionTokens := st1.completionTokens + goTruncQ ct }
        | _ => st1
      match lookupJ usage "total_tokens" with
      | some (JVal.num tt) => { st2 with totalTokens := st2.totalTokens + goTruncQ tt }
      | _ => st2
    | _ => st

/-- The JSON error envelope the handler writes (app.go lines 472 and 566-572). -/
def errorEnvelope (msg ty : String) (code : ℤ) : JVal :=
  JVal.obj [("error", JVal.obj [("message", JVal.str msg),
    ("type", JVal.str ty), ("code", JVal.num (code : ℚ))])]

/-- What the handler writes back to the caller: `http.Error` plain text, a
JSON-encoded value, a buffered raw body after `WriteHeader`, or an
incrementally copied stream. -/
inductive HttpResponse where
  | plainText : ℕ → String → HttpResponse
  | jsonBody : ℕ → JVal → HttpResponse
  | raw : ℕ → String → HttpResponse
  | streamed : String → HttpResponse

/-- Whether a response is a JSON error envelope of the documented shape. -/
def isErrorEnvelopeB : HttpResponse → Bool
  | HttpResponse.jsonBody _ (JVal.obj [("error", JVal.obj
      [("message", JVal.str _), ("type", JVal.str _), ("code", JVal.num _)])]) => true
  | _ => false

/-- `handleChatCompletions` (app.go lines 457-634) as a function of the
configuration snapshot, the ambient timestamp, the decoded inbound body
(`Except.error` models a read or JSON-parse failure with its message), the
outcome of the outbound call, and the statistics record.  Returns what is
written to the caller and the new statistics. -/
def handleChatCompletions (cfg : Config) (now : String)
    (inbound : Except String (List (String × JVal)))
    (upstream : Except String Upstream) (st : Stats) : HttpResponse × Stats :=
  if cfg.apiKey = "" then
    (HttpResponse.jsonBody 500
        (errorEnvelope "API key not configured" "configuration_error" 500),
      logError now "API key not configured" 500 st)
  else
    match inbound with
    | Except.error e => (HttpResponse.plainText 400 e, logError now e 400 st)
    | Except.ok req =>
      let nimReq := nimReqBody req cfg
      match upstream with
      | Except.error e =>
        (HttpResponse.jsonBody 500 (errorEnvelope e "api_error" 500),
          logError now e 500 st)
      | Except.ok u =>
        let st1 := { st with messageCount := st.messageCount + 1
                             lastRequestTime := now }
        if streamBool nimReq then
          (HttpResponse.streamed u.rawBody, st1)
        else
          (HttpResponse.raw u.statusCode u.rawBody, updateUsage u.parsedObj st1)

lemma lookup_nimReq_model (req : List (String × JVal)) (cfg : Config) :
    lookupJ (nimReqBody req cfg) "model" = some (JVal.str cfg.currentModel) := rfl

lemma lookup_nimReq_messages (req : List (String × JVal)) (cfg : Config) :
    lookupJ (nimReqBody req cfg) "messages"
      = some ((lookupJ req "messages").getD JVal.null) := rfl

lemma lookup_nimReq_temperature (req : List (String × JVal)) (cfg : Config) :
    lookupJ (nimReqBody req cfg) "temperature"
      = some (JVal.num (tempArg req cfg)) := rfl

lemma lookup_nimReq_max_tokens (req : List (String × JVal)) (cfg : Config) :
    lookupJ (nimReqBody req cfg) "max_tokens"
      = some (JVal.num (maxTokArg req cfg : ℚ)) := rfl

lemma lookup_nimReq_stream (req : List (String × JVal)) (cfg : Config) :
    lookupJ (nimReqBody req cfg) "stream"
      = some (JVal.bool (streamArg req cfg)) := rfl

/-- The configured state of the C4 scenario: model `"m1"`, temperature `0.7`,
max_tokens `0`, streaming enabled. -/
def cfgM1 : Config :=
  { cfgWithKey with currentModel := "m1" }

/-- The `messages` value of the C4 scenario. -/
def msgsEx : JVal :=
  JVal.arr [JVal.obj [("role", JVal.str "user"), ("content", JVal.str "hi")]]

/-- The outbound body of the C4 scenario. -/
def nimReqEx : List (String × JVal) :=
  [("model", JVal.str "m1"), ("messages", msgsEx),
   ("temperature", JVal.num (7/10)), ("max_tokens", JVal.num 0),
   ("stream", JVal.bool true)]

/-- C4: the translated outbound body carries the configured model (never the
caller's), passes `messages` through unchanged, and maps `temperature`,
`max_tokens` and `stream` to the caller's value when present (with its JSON
type) and to the configured default when absent; the concrete scenario body
with configured model `m1`, temperature `0.7`, max_tokens `0`, streaming on
yields exactly the expected outbound body. -/
theorem translate_field_mapping (req : List (String × JVal)) (cfg : Config) :
    lookupJ (nimReqBody req cfg) "model" = some (JVal.str cfg.currentModel) ∧
    lookupJ (nimReqBody req cfg) "messages"
      = some ((lookupJ req "messages").getD JVal.null) ∧
    (∀ t : ℚ, lookupJ req "temperature" = some (JVal.num t) →
      lookupJ (nimReqBody req cfg) "temperature" = some (JVal.num t)) ∧
    (lookupJ req "temperature" = none →
      lookupJ (nimReqBody req cfg) "temperature"
        = some (JVal.num cfg.temperature)) ∧
    (∀ n : ℤ, lookupJ req "max_tokens" = some (JVal.num (n : ℚ)) →
      lookupJ (nimReqBody req cfg) "max_tokens" = some (JVal.num (n : ℚ))) ∧
    (lookupJ req "max_tokens" = none →
      lookupJ (nimReqBody req cfg) "max_tokens"
        = some (JVal.num (cfg.maxTokens : ℚ))) ∧
    (∀ b : Bool, lookupJ req "stream" = some (JVal.bool b) →
      lookupJ (nimReqBody req cfg) "stream" = some (JVal.bool b)) ∧
    (lookupJ req "stream" = none →
      lookupJ (nimReqBody req cfg) "stream"
        = some (JVal.bool cfg.streamingEnabled)) ∧
    nimReqBody [("messages", msgsEx)] cfgM1 = nimReqEx := by
  refine ⟨lookup_nimReq_model req cfg, lookup_nimReq_messages req cfg,
    ?_, ?_, ?_, ?_, ?_, ?_, rfl⟩
  · intro t ht
    rw [lookup_nimReq_temperature]
    simp [tempArg, ht]
  · intro ht
    rw [lookup_nimReq_temperature]
    simp [tempArg, ht]
  · intro n hn
    rw [lookup_nimReq_max_tokens]
    simp [maxTokArg, hn, goTruncQ_intCast]
  · intro hn
    rw [lookup_nimReq_max_tokens]
    simp [maxTokArg, hn]
  · intro b hb
    rw [lookup_nimReq_stream]
    simp [streamArg, hb]
  · intro hb
    rw [lookup_nimReq_stream]
    simp [streamArg, hb]

/-- A caller body supplying a numeric temperature. -/
def reqTempEx : List (String × JVal) :=
  [("temperature", JVal.num (1/2)), ("messages", msgsEx)]

/-- Witness for `translate_field_mapping`: a caller-supplied temperature is
forwarded as given. -/
theorem translate_field_mapping_witness :
    lookupJ (nimReqBody reqTempEx cfgM1) "temperature"
      = some (JVal.num (1/2)) :=
  (translate_field_mapping reqTempEx cfgM1).2.2.1 (1/2) rfl

/-- C5: on the non-streaming relay path the caller receives the upstream
status code and the raw body unmodified, whatever the JSON parse outcome;
when the parsed body carries a `usage` object with the three token fields the
corresponding counters are incremented by exactly those values, and a parse
failure leaves the counters unchanged (while the body is still forwarded). -/
theorem nonstreaming_relay_usage_and_forwarding (cfg : Config) (now : String)
    (req : List (String × JVal)) (u : Upstream) (st : Stats)
    (hkey : cfg.apiKey ≠ "")
    (hstream : streamBool (nimReqBody req cfg) = false) :
    (handleChatCompletions cfg now (Except.ok req) (Except.ok u) st).1 =
      HttpResponse.raw u.statusCode u.rawBody ∧
    (∀ resp usage, ∀ pt ct tt : ℤ,
      u.parsedObj = some resp →
      lookupJ resp "usage" = some (JVal.obj usage) →
      lookupJ usage "prompt_tokens" = some (JVal.num (pt : ℚ)) →
      lookupJ usage "completion_tokens" = some (JVal.num (ct : ℚ)) →
      lookupJ usage "total_tokens" = some (JVal.num (tt : ℚ)) →
      (handleChatCompletions cfg now (Except.ok req) (Except.ok u) st).2.promptTokens
          = st.promptTokens + pt ∧
      (handleChatCompletions cfg now (Except.ok req) (Except.ok u) st).2.completionTokens
          = st.completionTokens + ct ∧
      (handleChatCompletions cfg now (Except.ok req) (Except.ok u) st).2.totalTokens
          = st.totalTokens + tt) ∧
    (u.parsedObj = none →
      (handleChatCompletions cfg now (Except.ok req) (Except.ok u) st).2.promptTokens
          = st.promptTokens ∧
      (handleChatCompletions cfg now (Except.ok req) (Except.ok u) st).2.completionTokens
          = st.completionTokens ∧
      (handleChatCompletions cfg now (Except.ok req) (Except.ok u) st).2.totalTokens
          = st.totalTokens) := by
  have hred : handleChatCompletions cfg now (Except.ok req) (Except.ok u) st
      = (HttpResponse.raw u.statusCode u.rawBody,
          updateUsage u.parsedObj
            { st with messageCount := st.messageCount + 1
                      lastRequestTime := now }) := by
    simp [handleChatCompletions, hkey, hstream]
  refine ⟨by rw [hred], ?_, ?_⟩
  · intro resp usage pt ct tt hp hu hpt hct htt
    rw [hred]
    refine ⟨?_, ?_, ?_⟩ <;>
      simp [updateUsage, hp, hu, hpt, hct, htt, goTruncQ_intCast]
  · intro hp
    rw [hred]
    exact ⟨by simp [updateUsage, hp], by simp [updateUsage, hp],
      by simp [updateUsage, hp]⟩

/-- A caller body requesting a non-streaming completion. -/
def reqNoStream : List (String × JVal) :=
  [("messages", msgsEx), ("stream", JVal.bool false)]

/-- The usage object of the C5 scenario. -/
def usageEx : List (String × JVal) :=
  [("prompt_tokens", JVal.num ((10 : ℤ) : ℚ)),
   ("completion_tokens", JVal.num ((5 : ℤ) : ℚ)),
   ("total_tokens", JVal.num ((15 : ℤ) : ℚ))]

/-- The upstream response of the C5 scenario. -/
def upstreamUsage : Upstream :=
  ⟨200, "RAWBODY", some [("choices", JVal.arr []), ("usage", JVal.obj usageEx)]⟩

/-- Witness for `nonstreaming_relay_usage_and_forwarding` on the C5 scenario
body: the counters are bumped by 10/5/15. -/
theorem nonstreaming_relay_witness :
    (handleChatCompletions cfgWithKey "t1" (Except.ok reqNoStream)
        (Except.ok upstreamUsage) (freshStats "t0")).2.promptTokens
      = (freshStats "t0").promptTokens + 10 ∧
    (handleChatCompletions cfgWithKey "t1" (Except.ok reqNoStream)
        (Except.ok upstreamUsage) (freshStats "t0")).2.completionTokens
      = (freshStats "t0").completionTokens + 5 ∧
    (handleChatCompletions cfgWithKey "t1" (Except.ok reqNoStream)
        (Except.ok upstreamUsage) (freshStats "t0")).2.totalTokens
      = (freshStats "t0").totalTokens + 15 :=
  (nonstreaming_relay_usage_and_forwarding cfgWithKey "t1" reqNoStream
      upstreamUsage (freshStats "t0") (by decide) rfl).2.1
    [("choices", JVal.arr []), ("usage", JVal.obj usageEx)] usageEx
    10 5 15 rfl rfl rfl rfl rfl

/-- An upstream response whose body did not parse as a JSON object. -/
def upstreamNoUsage : Upstream :=
  ⟨200, "OK", none⟩

/-- Counterexample to C6 as stated: with a credential configured, a malformed
inbound JSON body is answered with `http.Error`'s plain-text 400 response,
not with a JSON error envelope of shape error/message/type/code. -/
theorem malformed_json_not_enveloped :
    (handleChatCompletions cfgWithKey "t1"
        (Except.error "unexpected end of JSON input")
        (Except.ok upstreamNoUsage) (freshStats "t0")).1
      = HttpResponse.plainText 400 "unexpected end of JSON input" ∧
    isErrorEnvelopeB (handleChatCompletions cfgWithKey "t1"
        (Except.error "unexpected end of JSON input")
        (Except.ok upstreamNoUsage) (freshStats "t0")).1 = false :=
  ⟨rfl, rfl⟩

/-- C6 amended: a missing credential and an outbound call failure are each
answered with status 500 and the JSON error envelope; malformed inbound JSON
is answered with status 400 as a plain-text error body, which is not an
envelope. -/
theorem error_envelope_amended (cfg : Config) (now : String)
    (inbound : Except String (List (String × JVal)))
    (upstream : Except String Upstream) (st : Stats) :
    (cfg.apiKey = "" →
      (handleChatCompletions cfg now inbound upstream st).1 =
        HttpResponse.jsonBody 500
          (errorEnvelope "API key not configured" "configuration_error" 500) ∧
      isErrorEnvelopeB (handleChatCompletions cfg now inbound upstream st).1
        = true) ∧
    (∀ e, cfg.apiKey ≠ "" → inbound = Except.error e →
      (handleChatCompletions cfg now inbound upstream st).1 =
        HttpResponse.plainText 400 e ∧
      isErrorEnvelopeB (handleChatCompletions cfg now inbound upstream st).1
        = false) ∧
    (∀ req e, cfg.apiKey ≠ "" → inbound = Except.ok req →
      upstream = Except.error e →
      (handleChatCompletions cfg now inbound upstream st).1 =
        HttpResponse.jsonBody 500 (errorEnvelope e "api_error" 500) ∧
      isErrorEnvelopeB (handleChatCompletions cfg now inbound upstream st).1
        = true) := by
  refine ⟨fun h => ?_, fun e hk hi => ?_, fun req e hk hi hu => ?_⟩
  · constructor
    · simp [handleChatCompletions, h]
    · simp [handleChatCompletions, h, isErrorEnvelopeB, errorEnvelope]
  · subst hi
    constructor
    · simp [handleChatCompletions, hk]
    · simp [handleChatCompletions, hk, isErrorEnvelopeB]
  · subst hi
    subst hu
    constructor
    · simp [handleChatCompletions, hk]
    · simp [handleChatCompletions, hk, isErrorEnvelopeB, errorEnvelope]

/-- Witness for `error_envelope_amended`: an outbound failure is answered
with the envelope. -/
theorem error_envelope_amended_witness :
    (handleChatCompletions cfgWithKey "t1" (Except.ok reqNoStream)
        (Except.error "dial tcp: i/o timeout") (freshStats "t0")).1 =
      HttpResponse.jsonBody 500
        (errorEnvelope "dial tcp: i/o timeout" "api_error" 500) ∧
    isErrorEnvelopeB (handleChatCompletions cfgWithKey "t1"
        (Except.ok reqNoStream)
        (Except.error "dial tcp: i/o timeout") (freshStats "t0")).1 = true :=
  (error_envelope_amended cfgWithKey "t1" (Except.ok reqNoStream)
      (Except.error "dial tcp: i/o timeout") (freshStats "t0")).2.2
    reqNoStream "dial tcp: i/o timeout" (by decide) rfl rfl

/-- Tunnel state, mirroring `TunnelState` in `app.go`; the process handle is
modelled as an optional process identifier (`none` = no live handle). -/
structure TunnelState where
  url : String
  status : String
  process : Option ℕ
deriving DecidableEq

/-- The tunnel state built in `NewApp`: status `stopped`, zero values
elsewhere. -/
def initTunnel : TunnelState :=
  ⟨"", "stopped", none⟩

/-- The reply map of `StartTunnel`, plus whether this call spawned a
process. -/
structure StartResult where
  success : Bool
  url : Option String
  status : Option String
  error : Option String
  spawned : Bool
deriving DecidableEq

/-- `StartTunnel` (app.go lines 156-286): no-op when already running;
`binFound` models the platform-dependent executable search, `spawnOk` the
outcome of `cmd.Start()`, and `pid` the handle of a newly created process.
The source sets status to `"starting"` before the spawn attempt, resets it
to `"stopped"` on spawn failure (touching neither URL nor handle), and
records the handle only after a successful spawn. -/
def startTunnel (binFound spawnOk : Bool) (pid : ℕ) (s : TunnelState) :
    TunnelState × StartResult :=
  if s.status = "running" then
    (s, ⟨true, some s.url, some "running", none, false⟩)
  else if ¬ binFound then
    (s, ⟨false, none, none, some "cloudflared not found", false⟩)
  else
    let s1 := { s with status := "starting" }
    if ¬ spawnOk then
      ({ s1 with status := "stopped" },
        ⟨false, none, none, some "Failed to start cloudflared", false⟩)
    else
      ({ s1 with process := some pid }, ⟨true, none, some "starting", none, true⟩)

/-- `StopTunnel` (app.go lines 289-300): kills the process when a handle
exists and always clears handle, status and URL; returns `true`. -/
def stopTunnel (_s : TunnelState) : TunnelState × Bool :=
  (⟨"", "stopped", none⟩, true)

/-- The process-exit watcher goroutine (app.go lines 273-280): on `cmd.Wait`
returning it sets status `stopped` and clears URL and handle. -/
def tunnelProcessExit (_s : TunnelState) : TunnelState :=
  ⟨"", "stopped", none⟩

/-- ASCII whitespace as trimmed by Go's `strings.TrimSpace` (the Unicode
space characters do not occur in the inputs considered here). -/
def isGoSpace (c : Char) : Bool :=
  c == ' ' || c == '\t' || c == '\n' || c == '\r' ||
    c == Char.ofNat 11 || c == Char.ofNat 12

/-- Whether `pat` is an initial segment of `s`. -/
def listStartsWith : List Char → List Char → Bool
  | _, [] => true
  | [], _ :: _ => false
  | a :: as, b :: bs => a == b && listStartsWith as bs

/-- Go's `strings.Index s pat`: position of the first occurrence of `pat`
in `s`, `none` when absent. -/
def indexOfSub (s pat : List Char) : Option ℕ :=
  if listStartsWith s pat then some 0
  else
    match s with
    | [] => none
    | _ :: t => (indexOfSub t pat).map (· + 1)

/-- Go's `strings.Index s " "`: position of the first space character. -/
def charIndex (l : List Char) (c : Char) : Option ℕ :=
  match l with
  | [] => none
  | a :: t => if a = c then some 0 else (charIndex t c).map (· + 1)

/-- Removal of trailing whitespace. -/
def trimRightSpace : List Char → List Char
  | [] => []
  | c :: cs =>
    let r := trimRightSpace cs
    if r.isEmpty then (if isGoSpace c then [] else [c]) else c :: r

/-- Go's `strings.TrimSpace`: strip leading and trailing whitespace. -/
def goTrimSpace (l : List Char) : List Char :=
  trimRightSpace (l.dropWhile fun c => isGoSpace c)

/-- The fixed public-tunnel hostname marker (app.go line 224). -/
def tunnelMarker : List Char :=
  "trycloudflare.com".toList

/-- The URL marker (app.go line 225). -/
def httpsMark : List Char :=
  "https://".toList

/-- The slice `output[start : start+end]` of app.go lines 227-231: up to the
next space character when one exists (`end` from `strings.Index`), else to
the end of the chunk. -/
def cutAtSpace (rest : List Char) : List Char :=
  match charIndex rest ' ' with
  | some e => rest.take e
  | none => rest

/-- The `strings.HasSuffix` check of app.go lines 232-234: remove one
trailing period when present. -/
def finalizeURL (url1 : List Char) : List Char :=
  if url1.getLast? = some '.' then url1.dropLast else url1

/-- URL extraction of `scanForURL` (app.go lines 223-242): when the chunk
contains the hostname marker and an `https://` occurrence, the substring
from the first `https://` up to the next space character (or the end of the
chunk), with surrounding whitespace trimmed and then a single trailing
period removed. -/
def urlFromChunk (output : List Char) : Option (List Char) :=
  if (indexOfSub output tunnelMarker).isSome then
    match indexOfSub output httpsMark with
    | none => none
    | some start =>
      some (finalizeURL (goTrimSpace (cutAtSpace (output.drop start))))
  else none

/-- `scanForURL` applied to one chunk of subprocess output: on a match it
records the URL and sets status `running` (the process handle is not
touched). -/
def scanForURL (output : String) (s : TunnelState) : TunnelState :=
  match urlFromChunk output.toList with
  | some u => { s with url := String.mk u, status := "running" }
  | none => s

/-- The specified tunnel state invariant (spec section 3): `running` implies
a non-empty URL and a live handle; `stopped` implies an empty URL and no
handle. -/
def tunnelInv (s : TunnelState) : Prop :=
  (s.status = "running" → s.url ≠ "" ∧ s.process.isSome = true) ∧
  (s.status = "stopped" → s.url = "" ∧ s.process = none)

instance (s : TunnelState) : Decidable (tunnelInv s) := by
  unfold tunnelInv
  infer_instance

lemma listStartsWith_cons {s : List Char} {c : Char} {cs : List Char}
    (h : listStartsWith s (c :: cs) = true) : ∃ t, s = c :: t := by
  cases s with
  | nil => simp [listStartsWith] at h
  | cons a as =>
    simp [listStartsWith] at h
    exact ⟨as, by rw [h.1]⟩

lemma indexOfSub_drop {s pat : List Char} {i : ℕ}
    (h : indexOfSub s pat = some i) :
    listStartsWith (List.drop i s) pat = true := by
  induction s generalizing i with
  | nil =>
    unfold indexOfSub at h
    split at h
    · next hsw =>
      injection h with h
      subst h
      simpa using hsw
    · simp at h
  | cons a t ih =>
    unfold indexOfSub at h
    split at h
    · next hsw =>
      injection h with h
      subst h
      simpa using hsw
    · next hsw =>
      simp only [Option.map_eq_some'] at h
      obtain ⟨j, hj, hji⟩ := h
      subst hji
      simpa using ih hj

lemma urlFromChunk_eq_some {output : List Char} {start : ℕ}
    (hm : (indexOfSub output tunnelMarker).isSome = true)
    (hidx : indexOfSub output httpsMark = some start) :
    urlFromChunk output
      = some (finalizeURL (goTrimSpace (cutAtSpace (output.drop start)))) := by
  unfold urlFromChunk
  rw [if_pos hm, hidx]

lemma charIndex_cons_of_ne {a c : Char} {t : List Char} (h : ¬ a = c) :
    charIndex (a :: t) c = (charIndex t c).map (· + 1) := by
  simp [charIndex, h]

lemma cutAtSpace_h_head {rest t : List Char} (hrest : rest = 'h' :: t) :
    ∃ t', cutAtSpace rest = 'h' :: t' := by
  subst hrest
  unfold cutAtSpace
  cases hci : charIndex ('h' :: t) ' ' with
  | none => exact ⟨t, rfl⟩
  | some e =>
    rw [charIndex_cons_of_ne (by decide)] at hci
    simp only [Option.map_eq_some'] at hci
    obtain ⟨j, hj, hji⟩ := hci
    subst hji
    exact ⟨t.take j, by simp⟩

lemma trimRightSpace_cons_head {c : Char} (hc : isGoSpace c = false)
    (t : List Char) : ∃ t', trimRightSpace (c :: t) = c :: t' := by
  by_cases hr : (trimRightSpace t).isEmpty
  · exact ⟨[], by simp [trimRightSpace, hr, hc]⟩
  · exact ⟨trimRightSpace t, by simp [trimRightSpace, hr, hc]⟩

lemma goTrimSpace_h_head (t : List Char) :
    ∃ t', goTrimSpace ('h' :: t) = 'h' :: t' := by
  unfold goTrimSpace
  rw [List.dropWhile_cons, if_neg (by decide)]
  exact trimRightSpace_cons_head (by decide) t

lemma finalizeURL_h_head (t : List Char) :
    ∃ t', finalizeURL ('h' :: t) = 'h' :: t' := by
  unfold finalizeURL
  by_cases hl : ('h' :: t).getLast? = some '.'
  · rw [if_pos hl]
    cases t with
    | nil => exact absurd hl (by decide)
    | cons b bs => exact ⟨(b :: bs).dropLast, rfl⟩
  · rw [if_neg hl]
    exact ⟨t, rfl⟩

lemma urlFromChunk_h_head {output u : List Char}
    (h : urlFromChunk output = some u) : ∃ t, u = 'h' :: t := by
  by_cases hm : (indexOfSub output tunnelMarker).isSome = true
  · cases hidx : indexOfSub output httpsMark with
    | none =>
      unfold urlFromChunk at h
      rw [if_pos hm, hidx] at h
      exact absurd h (by simp)
    | some start =>
      rw [urlFromChunk_eq_some hm hidx] at h
      injection h with h
      have hsw : listStartsWith (List.drop start output)
          ('h' :: "ttps://".toList) = true := indexOfSub_drop hidx
      obtain ⟨t0, ht0⟩ := listStartsWith_cons hsw
      obtain ⟨t1, ht1⟩ := cutAtSpace_h_head ht0
      rw [ht1] at h
      obtain ⟨t2, ht2⟩ := goTrimSpace_h_head t1
      rw [ht2] at h
      obtain ⟨t3, ht3⟩ := finalizeURL_h_head t2
      rw [ht3] at h
      exact ⟨t3, h.symm⟩
  · unfold urlFromChunk at h
    rw [if_neg hm] at h
    exact absurd h (by simp)

lemma String_mk_ne_empty (c : Char) (t : List Char) :
    String.mk (c :: t) ≠ "" := by
  intro h
  have hd := congrArg String.data h
  simp at hd

/-- Counterexample to C2 as stated: starting succeeds (reaching `starting`
with a live handle), then a second start without an intervening stop whose
spawn fails resets status to `stopped` while the first handle is still
recorded — `stopped` with a process handle present, violating the
invariant. -/
theorem tunnel_invariant_counterexample :
    (startTunnel true false 8 (startTunnel true true 7 initTunnel).1).1.status
      = "stopped" ∧
    (startTunnel true false 8 (startTunnel true true 7 initTunnel).1).1.process
      = some 7 ∧
    ¬ tunnelInv (startTunnel true false 8 (startTunnel true true 7 initTunnel).1).1 := by
  decide

/-- C2 amended: stop and process-exit handling always re-establish the
invariant; a URL observation preserves it whenever a process handle is
present (and always yields a non-empty URL); a start call preserves it from
any `stopped` or `running` state.  (From a `starting` state a failing spawn,
and a URL observation after the handle was cleared, can break the handle
half of the invariant, per the counterexample.) -/
theorem tunnel_invariant_amended (s : TunnelState) (output : String)
    (binFound spawnOk : Bool) (pid : ℕ) :
    tunnelInv (stopTunnel s).1 ∧
    tunnelInv (tunnelProcessExit s) ∧
    (tunnelInv s → s.process.isSome = true → tunnelInv (scanForURL output s)) ∧
    (tunnelInv s → s.status = "stopped" ∨ s.status = "running" →
      tunnelInv (startTunnel binFound spawnOk pid s).1) := by
  refine ⟨?_, ?_, ?_, ?_⟩
  · exact (show tunnelInv ⟨"", "stopped", none⟩ by decide)
  · exact (show tunnelInv ⟨"", "stopped", none⟩ by decide)
  · intro hinv hproc
    unfold scanForURL
    cases hu : urlFromChunk output.toList with
    | none => exact hinv
    | some u =>
      obtain ⟨t, ht⟩ := urlFromChunk_h_head hu
      subst ht
      refine ⟨fun _ => ⟨String_mk_ne_empty 'h' t, hproc⟩, fun hst => ?_⟩
      exact absurd hst (show ¬ ("running" = "stopped") by decide)
  · intro hinv hss
    unfold startTunnel
    by_cases hr : s.status = "running"
    · rw [if_pos hr]
      exact hinv
    · rw [if_neg hr]
      have hstop : s.status = "stopped" := hss.resolve_right hr
      obtain ⟨hurl, hpr⟩ := hinv.2 hstop
      by_cases hb : binFound = true
      · rw [if_neg (by simp [hb])]
        by_cases hs2 : spawnOk = true
        · rw [if_neg (by simp [hs2])]
          exact ⟨fun h => absurd h (show ¬ ("starting" = "running") by decide),
            fun h => absurd h (show ¬ ("starting" = "stopped") by decide)⟩
        · rw [if_pos (by simpa using hs2)]
          exact ⟨fun h => absurd h (show ¬ ("stopped" = "running") by decide),
            fun _ => ⟨hurl, hpr⟩⟩
      · rw [if_pos (by simpa using hb)]
        exact hinv

/-- The state after one successful start from the initial state. -/
def startedState : TunnelState :=
  (startTunnel true true 7 initTunnel).1

/-- Witness for `tunnel_invariant_amended`: a URL observation on a freshly
started tunnel (live handle) satisfies the invariant. -/
theorem tunnel_invariant_amended_witness :
    tunnelInv (scanForURL "https://a.trycloudflare.com \n" startedState) :=
  (tunnel_invariant_amended startedState "https://a.trycloudflare.com \n"
      true true 7).2.2.1 (by decide) (by decide)

/-- One start call folded into a trace: next state plus spawn count. -/
def startStep (acc : TunnelState × ℕ) (p : Bool × Bool × ℕ) :
    TunnelState × ℕ :=
  ((startTunnel p.1 p.2.1 p.2.2 acc.1).1,
    acc.2 + if (startTunnel p.1 p.2.1 p.2.2 acc.1).2.spawned then 1 else 0)

/-- A sequence of start calls (each with its executable-search and spawn
outcome and fresh pid), counting how many spawned a process. -/
def applyStarts (l : List (Bool × Bool × ℕ)) (s : TunnelState) :
    TunnelState × ℕ :=
  l.foldl startStep (s, 0)

lemma startStep_running {s : TunnelState} {n : ℕ} {p : Bool × Bool × ℕ}
    (h : s.status = "running") : startStep (s, n) p = (s, n) := by
  simp [startStep, startTunnel, h]

lemma foldl_startStep_running (l : List (Bool × Bool × ℕ)) {s : TunnelState}
    (n : ℕ) (h : s.status = "running") : l.foldl startStep (s, n) = (s, n) := by
  induction l with
  | nil => rfl
  | cons p l ih => rw [List.foldl_cons, startStep_running h]; exact ih

/-- Counterexample to C3 as stated: two start calls in a row with no stop in
between (the second arriving while the first is still `starting`, before any
URL was observed) both spawn a process, and the second spawn overwrites the
first handle. -/
theorem start_twice_spawns_again :
    (startTunnel true true 7 initTunnel).2.spawned = true ∧
    (startTunnel true true 8 (startTunnel true true 7 initTunnel).1).2.spawned
      = true ∧
    (startTunnel true true 8 (startTunnel true true 7 initTunnel).1).1.process
      = some 8 := by
  decide

/-- C3 amended: once the tunnel is `running`, a start call is a no-op that
returns success with the current URL and status `running` without spawning,
and any sequence of further start calls leaves the state unchanged with zero
spawns.  (Before `running` is reached — status `starting` — a second start
call does spawn again, per the counterexample.) -/
theorem start_noop_when_running (s : TunnelState) (l : List (Bool × Bool × ℕ))
    (binFound spawnOk : Bool) (pid : ℕ) (h : s.status = "running") :
    startTunnel binFound spawnOk pid s
      = (s, ⟨true, some s.url, some "running", none, false⟩) ∧
    applyStarts l s = (s, 0) := by
  constructor
  · unfold startTunnel
    rw [if_pos h]
  · exact foldl_startStep_running l 0 h

/-- A running tunnel state. -/
def runningState : TunnelState :=
  ⟨"https://x.trycloudflare.com", "running", some 7⟩

/-- Witness for `start_noop_when_running`: two further start calls on a
running tunnel change nothing and spawn nothing. -/
theorem start_noop_when_running_witness :
    startTunnel true true 9 runningState
      = (runningState,
          ⟨true, some runningState.url, some "running", none, false⟩) ∧
    applyStarts [(true, true, 9), (true, false, 10)] runningState
      = (runningState, 0) :=
  start_noop_when_running runningState [(true, true, 9), (true, false, 10)]
    true true 9 rfl

/-- Position of the first whitespace character. -/
def whitespaceIndex (l : List Char) : Option ℕ :=
  match l with
  | [] => none
  | a :: t => if isGoSpace a then some 0 else (whitespaceIndex t).map (· + 1)

/-- Common trailing punctuation. -/
def isPunctChar (c : Char) : Bool :=
  c == '.' || c == ',' || c == ';' || c == ':' || c == '!' || c == '?'

/-- Modelled from the claim wording, for comparison with the code's
`urlFromChunk`: when the chunk contains the hostname marker, the first
`https://`-prefixed substring extending up to the next whitespace character,
with trailing punctuation trimmed. -/
def claimURLRule (output : List Char) : Option (List Char) :=
  if (indexOfSub output tunnelMarker).isSome then
    match indexOfSub output httpsMark with
    | none => none
    | some start =>
      let rest := output.drop start
      let url0 :=
        match whitespaceIndex rest with
        | some e => rest.take e
        | none => rest
      some ((url0.reverse.dropWhile fun c => isPunctChar c).reverse)
  else none

/-- Counterexample to C8 as stated: the code cuts at the next space
character only, so a tab ends up inside the recorded URL where the claimed
rule (up to the next whitespace) stops before it; and only a single trailing
period is removed, so two trailing periods leave one behind where the
claimed rule (trailing punctuation trimmed) leaves none. -/
theorem url_extraction_counterexample :
    (scanForURL "https://a.trycloudflare.com\tb c" initTunnel).url
      = "https://a.trycloudflare.com\tb" ∧
    claimURLRule ("https://a.trycloudflare.com\tb c").toList
      = some ("https://a.trycloudflare.com").toList ∧
    (scanForURL "https://a.trycloudflare.com\tb c" initTunnel).url.toList
      ≠ ("https://a.trycloudflare.com").toList ∧
    '\t' ∈ (scanForURL "https://a.trycloudflare.com\tb c" initTunnel).url.toList ∧
    (scanForURL "https://a.trycloudflare.com.. " initTunnel).url
      = "https://a.trycloudflare.com." ∧
    claimURLRule ("https://a.trycloudflare.com.. ").toList
      = some ("https://a.trycloudflare.com").toList := by
  decide

/-- C8 amended: a chunk without the hostname marker changes nothing; a chunk
with an extracted URL (first `https://` occurrence cut at the next space
character or chunk end, whitespace-trimmed, one trailing period removed)
moves the state to `running` with that non-empty URL recorded, leaving the
handle untouched; a later match overwrites an earlier one; and the two
concrete scenario chunks extract the expected URLs. -/
theorem url_extraction_amended (s : TunnelState) (out1 out2 : String) :
    ((indexOfSub out1.toList tunnelMarker).isSome = false →
      scanForURL out1 s = s) ∧
    (∀ u, urlFromChunk out1.toList = some u →
      (scanForURL out1 s).status = "running" ∧
      (scanForURL out1 s).url = String.mk u ∧
      (scanForURL out1 s).url ≠ "" ∧
      (scanForURL out1 s).process = s.process) ∧
    ((urlFromChunk out2.toList).isSome = true →
      scanForURL out2 (scanForURL out1 s) = scanForURL out2 s) ∧
    scanForURL "2024 INF https://abc-def.trycloudflare.com \n" initTunnel
      = ⟨"https://abc-def.trycloudflare.com", "running", none⟩ ∧
    scanForURL "https://a.trycloudflare.com.\n" initTunnel
      = ⟨"https://a.trycloudflare.com", "running", none⟩ := by
  refine ⟨?_, ?_, ?_, by decide, by decide⟩
  · intro h
    unfold scanForURL urlFromChunk
    have h' : indexOfSub out1.toList tunnelMarker = none := by
      cases hcase : indexOfSub out1.toList tunnelMarker
      · rfl
      · rw [hcase] at h; simp at h
    rw [if_neg (by rw [h']; simp)]
  · intro u hu
    obtain ⟨t, ht⟩ := urlFromChunk_h_head hu
    subst ht
    refine ⟨?_, ?_, ?_, ?_⟩ <;> simp only [scanForURL, hu]
    exact String_mk_ne_empty 'h' t
  · intro h2
    cases hu2 : urlFromChunk out2.toList with
    | none => rw [hu2] at h2; simp at h2
    | some u2 =>
      have hu2' : urlFromChunk out2.data = some u2 := hu2
      cases hu1 : urlFromChunk out1.toList with
      | none =>
        have hu1' : urlFromChunk out1.data = none := hu1
        simp [scanForURL, hu1, hu2, hu1', hu2']
      | some u1 =>
        have hu1' : urlFromChunk out1.data = some u1 := hu1
        simp [scanForURL, hu1, hu2, hu1', hu2']

/-- Witness for `url_extraction_amended`: a second matching chunk overwrites
the URL recorded by a first matching chunk. -/
theorem url_extraction_amended_witness :
    scanForURL "https://b.trycloudflare.com y"
        (scanForURL "https://a.trycloudflare.com x" initTunnel)
      = scanForURL "https://b.trycloudflare.com y" initTunnel :=
  (url_extraction_amended initTunnel "https://a.trycloudflare.com x"
      "https://b.trycloudflare.com y").2.2.1 (by decide)
